import Mathlib

/-!
Verification of the post-conversion package repair pipeline of
`converter.py` (epub-converter).

The development shallowly embeds the three core operations of the source:

* `fix_xhtml_content` (the Markup Normalizer, `src/converter.py:177-215`):
  BeautifulSoup documents are modelled as a mutual inductive tree
  `Node`/`NodeList` of element nodes (lower-cased tag, attribute list,
  children) and text nodes.  `find('body')` is the first `body` element in
  preorder (document order); `find_all('img')` collects `img` descendants
  in document order; `decompose` structurally removes a subtree; the
  attribute deletions remove the `class`/`style` keys.  In `html.parser`
  an `img` is a void element and never has children, but the embedding
  keeps the general tree and mirrors BeautifulSoup's behaviour on it.

* `fix_html_and_repack_epub` (the Package Repackager,
  `src/converter.py:218-278`): the working folder is a list of files,
  each a non-empty relative path (a list of components, as `pathlib`
  paths) plus content.  Zip entries record the arcname (again a component
  list, mirroring `item.relative_to(temp_extract_dir)`), the compression
  mode and the data.  `zipfile.ZipFile(p, 'w')` is opened with the
  zipfile default `compression=ZIP_STORED`, and `zf.write(item, arcname)`
  without a `compress_type` inherits that default, so pass B writes
  stored entries.  The try/except/finally control flow is embedded as an
  explicit run over an injected failure point.

* `extract_archive` (the Archive Extractor, `src/converter.py:130-174`):
  modelled as a function from an archive description (extension, validity
  flags, whether `unrar` is present, whether extraction raises) to the
  observable outcome: the returned value (`Path | None`), the diagnostic
  branch that printed, and the state of the working folder after return.
-/

/-! ## Document trees (BeautifulSoup model) -/

mutual

/-- A node of a parsed markup document: a text node or an element with a
(lower-cased) tag, an attribute list and children. -/
inductive Node where
  | text (s : String) : Node
  | elem (tag : String) (attrs : List (String × String)) (children : NodeList) : Node

/-- A sequence of sibling nodes. -/
inductive NodeList where
  | nil : NodeList
  | cons (n : Node) (ns : NodeList) : NodeList

end

namespace Markup

/-- Removing the `class` and `style` keys from an attribute list
(`del first_img.attrs['class']` / `del first_img.attrs['style']`). -/
def stripPresentation (attrs : List (String × String)) : List (String × String) :=
  attrs.filter (fun p => ¬(p.1 = "class" ∨ p.1 = "style"))

mutual

/-- Number of `img` elements in a subtree, the node itself included. -/
def imgCountN : Node → Nat
  | .text _ => 0
  | .elem tag _ cs => (if tag = "img" then 1 else 0) + imgCountL cs

/-- Number of `img` elements in a forest. -/
def imgCountL : NodeList → Nat
  | .nil => 0
  | .cons n ns => imgCountN n + imgCountL ns

end

mutual

/-- The attributes of the first `img` element of a subtree in document
order (preorder), the node itself included. -/
def firstImgN : Node → Option (List (String × String))
  | .text _ => none
  | .elem tag attrs cs => if tag = "img" then some attrs else firstImgL cs

/-- The attributes of the first `img` element of a forest in document order. -/
def firstImgL : NodeList → Option (List (String × String))
  | .nil => none
  | .cons n ns =>
    match firstImgN n with
    | some a => some a
    | none => firstImgL ns

end

mutual

/-- Whether a subtree contains a `body` element (the node itself included). -/
def hasBodyN : Node → Bool
  | .text _ => false
  | .elem tag _ cs => tag = "body" || hasBodyL cs

/-- Whether a forest contains a `body` element. -/
def hasBodyL : NodeList → Bool
  | .nil => false
  | .cons n ns => hasBodyN n || hasBodyL ns

end

mutual

/-- `soup.find('body')` on a subtree: the first `body` element in document
order (preorder), the node itself included. -/
def findBodyN : Node → Option Node
  | .text _ => none
  | .elem tag attrs cs =>
    if tag = "body" then some (.elem tag attrs cs) else findBodyL cs

/-- `soup.find('body')` on a forest. -/
def findBodyL : NodeList → Option Node
  | .nil => none
  | .cons n ns =>
    match findBodyN n with
    | some b => some b
    | none => findBodyL ns

end

/-- The children of an element node (empty for a text node). -/
def bodyChildren : Node → NodeList
  | .text _ => .nil
  | .elem _ _ cs => cs

mutual

/-- The image-collapsing mutation performed inside the body: the flag
records whether the first `img` (of `img_tags`, materialised before the
loop) has already been kept.  The first `img` met in document order is
kept with its `class`/`style` attributes removed; every later `img` is
`decompose`d, i.e. dropped with its whole subtree. -/
def fixImgsN : Bool → Node → Bool × Option Node
  | found, .text s => (found, some (.text s))
  | found, .elem tag attrs cs =>
    if tag = "img" then
      if found then (true, none)
      else
        let r := fixImgsL true cs
        (r.1, some (.elem tag (stripPresentation attrs) r.2))
    else
      let r := fixImgsL found cs
      (r.1, some (.elem tag attrs r.2))

/-- The image-collapsing mutation on a forest of siblings. -/
def fixImgsL : Bool → NodeList → Bool × NodeList
  | found, .nil => (found, .nil)
  | found, .cons n ns =>
    let rn := fixImgsN found n
    let rs := fixImgsL rn.1 ns
    (rs.1, match rn.2 with
           | none => rs.2
           | some n2 => .cons n2 rs.2)

end

mutual

/-- Replace the children of the first `body` element (in document order)
of a subtree with `newCs`; the rest of the tree is untouched. -/
def replaceBodyN (newCs : NodeList) : Node → Node
  | .text s => .text s
  | .elem tag attrs cs =>
    if tag = "body" then .elem tag attrs newCs
    else .elem tag attrs (replaceBodyL newCs cs)

/-- Replace the children of the first `body` element of a forest. -/
def replaceBodyL (newCs : NodeList) : NodeList → NodeList
  | .nil => .nil
  | .cons n ns =>
    if hasBodyN n then .cons (replaceBodyN newCs n) ns
    else .cons n (replaceBodyL newCs ns)

end

/-- `fix_xhtml_content` on a parsed document (`src/converter.py:177-215`):
find the first `body`; if none, or if the body holds fewer than two `img`
descendants, return the document unchanged with `False`; otherwise keep
only the first `img` (attributes stripped), drop the others, and return
the mutated document with `True`.  The `False` branches never rewrite the
file, so the returned document is the input itself. -/
def fixXhtmlContent (doc : NodeList) : NodeList × Bool :=
  match findBodyL doc with
  | none => (doc, false)
  | some b =>
    if imgCountL (bodyChildren b) < 2 then (doc, false)
    else (replaceBodyL (fixImgsL false (bodyChildren b)).2 doc, true)

end Markup

/-! ## Files, zip containers and the rebuild pass -/

namespace Repack

/-- A file in the unpacked working folder: a relative path (a non-empty
list of path components, as a `pathlib` relative path) and its content. -/
structure FsFile where
  path : List String
  content : String
  deriving DecidableEq, Repr

/-- The compression mode recorded for a zip entry. -/
inductive CompressMode where
  | stored
  | deflated
  deriving DecidableEq, Repr

/-- One entry of the rebuilt zip container: arcname (as its path
components, mirroring `item.relative_to(temp_extract_dir)`), compression
mode, and data. -/
structure ZipEntry where
  name : List String
  mode : CompressMode
  data : String
  deriving DecidableEq, Repr

/-- The base name of a file (`item.name` in `pathlib`). -/
def baseName (f : FsFile) : String := f.path.getLastD ""

/-- Pass A of the rebuild (`src/converter.py:250-252`): if
`temp_extract_dir / 'mimetype'` exists, write it first with
`compress_type=zipfile.ZIP_STORED`. -/
def mimetypePass (folder : List FsFile) : List ZipEntry :=
  match folder.find? (fun f => f.path = ["mimetype"]) with
  | some f => [⟨["mimetype"], .stored, f.content⟩]
  | none => []

/-- Pass B of the rebuild (`src/converter.py:255-258`): every file under
the working folder whose base name is not `mimetype`, written with
`zf.write(item, arcname)`.  The `ZipFile` was opened as
`zipfile.ZipFile(temp_epub_path, 'w')`, whose default compression is
`ZIP_STORED`, and `write` without a `compress_type` inherits it, so these
entries are stored. -/
def restPass (folder : List FsFile) : List ZipEntry :=
  (folder.filter (fun f => ¬ baseName f = "mimetype")).map
    (fun f => ⟨f.path, .stored, f.content⟩)

/-- The rebuilt container produced by step 3 of `fix_html_and_repack_epub`
from the working folder's files (`src/converter.py:247-258`): the
`mimetype` pass followed by the rest pass, in physical write order. -/
def rebuildEntries (folder : List FsFile) : List ZipEntry :=
  mimetypePass folder ++ restPass folder

/-- Whether a path names a markup fragment picked up by the
`rglob('*.html')` / `rglob('*.xhtml')` passes (`src/converter.py:233-239`). -/
def isMarkupPath (p : List String) : Bool :=
  (p.getLastD "").endsWith ".html" || (p.getLastD "").endsWith ".xhtml"

/-- Step 2 of `fix_html_and_repack_epub`: apply the normalizer to every
markup fragment under the working folder, in place.  The content rewrite
performed by `fix_xhtml_content` is abstracted as a function `g` on file
content; paths are untouched. -/
def normalizeFolder (g : String → String) (folder : List FsFile) : List FsFile :=
  folder.map (fun f => if isMarkupPath f.path then ⟨f.path, g f.content⟩ else f)

/-- Unpacking a zip container into the working folder
(`shutil.unpack_archive`, `src/converter.py:229`): each entry becomes a
file at its entry path. -/
def unpackFolder (orig : List ZipEntry) : List FsFile :=
  orig.map (fun e => ⟨e.name, e.data⟩)

/-! ### The repackage run with failure injection

`fix_html_and_repack_epub` is a `try`/`except`/`finally` block over the
filesystem.  The filesystem state tracks the package path, the temporary
container path (`epub_path.with_suffix('.temp.epub')`) and the working
folder.  A `FailPoint` injects an exception at one point of the body (or
nowhere); the `except` handler unlinks the temporary container if it
exists, and the `finally` handler removes the working folder if it
exists. -/

/-- The relevant filesystem state around one `fix_html_and_repack_epub`
call: the container at the package path (`none` = no file), the container
at the temporary path, and the working folder's files (`none` = the
folder does not exist). -/
structure FS where
  pkg : Option (List ZipEntry)
  temp : Option (List ZipEntry)
  workdir : Option (List FsFile)
  deriving DecidableEq, Repr

/-- Where, if anywhere, the body of `fix_html_and_repack_epub` raises:
during unpack (with or without the working folder already created),
inside the normalize loop, during the rebuild after `written` entries
went into the temporary container, or during the commit (after the
original was unlinked or before). -/
inductive FailPoint where
  | noFail
  | atUnpack (dirCreated : Bool)
  | atNormalize
  | atRebuild (written : Nat)
  | atCommit (afterUnlink : Bool)
  deriving DecidableEq, Repr

/-- The `try` body of `fix_html_and_repack_epub`
(`src/converter.py:227-262`): unpack, normalize, rebuild into the
temporary container, then commit (unlink the original, rename the
temporary container onto the package path).  `Sum.inl` carries the
filesystem state at the injected raise; `Sum.inr` is normal completion. -/
def tryBody (g : String → String) (fp : FailPoint) (s0 : FS) : FS ⊕ FS :=
  match fp with
  | .atUnpack dirCreated =>
    .inl { s0 with workdir := if dirCreated then some [] else s0.workdir }
  | _ =>
    match s0.pkg with
    | none => .inl s0
    | some orig =>
      let s1 : FS := { s0 with workdir := some (unpackFolder orig) }
      match fp with
      | .atNormalize => .inl s1
      | _ =>
        let folder := normalizeFolder g (unpackFolder orig)
        let s2 : FS := { s1 with workdir := some folder }
        let entries := rebuildEntries folder
        match fp with
        | .atRebuild written => .inl { s2 with temp := some (entries.take written) }
        | _ =>
          let s3 : FS := { s2 with temp := some entries }
          match fp with
          | .atCommit afterUnlink =>
            .inl (if afterUnlink then { s3 with pkg := none } else s3)
          | _ => .inr { s3 with pkg := some entries, temp := none }

/-- The `except` handler (`src/converter.py:266-270`): if the temporary
container file exists, unlink it. -/
def exceptHandler (s : FS) : FS := { s with temp := none }

/-- The `finally` handler (`src/converter.py:272-276`): if the working
folder exists, remove it recursively. -/
def finallyCleanup (s : FS) : FS := { s with workdir := none }

/-- One run of `fix_html_and_repack_epub` over the starting filesystem
state, with the failure scenario `fp` injected; returns the final
filesystem state and whether the body completed (the repackage
succeeded). -/
def fixHtmlAndRepackEpub (g : String → String) (fp : FailPoint) (s0 : FS) : FS × Bool :=
  match tryBody g fp s0 with
  | .inl sErr => (finallyCleanup (exceptHandler sErr), false)
  | .inr sOk => (finallyCleanup sOk, true)

/-- The failure points of a run that sit strictly before the commit step:
unpack errors, normalize exceptions, and rebuild failures partway. -/
def preCommitFail (fp : FailPoint) : Prop :=
  match fp with
  | .atUnpack _ => True
  | .atNormalize => True
  | .atRebuild _ => True
  | .noFail => False
  | .atCommit _ => False

instance (fp : FailPoint) : Decidable (preCommitFail fp) := by
  unfold preCommitFail
  cases fp <;> infer_instance

end Repack

/-! ## The archive extractor -/

namespace Extract

open Repack (FsFile)

/-- An input to `extract_archive`, described by what the source inspects:
the path's stem and lower-cased suffix, the outcome of
`zipfile.is_zipfile` / `rarfile.is_rarfile`, the archive's entries, and
the two extraction hazards the source handles — `rarfile.RarExecError`
raised when the external `unrar` utility is absent, and a generic
exception raised mid-extraction. -/
structure ArchiveInput where
  stem : String
  suffix : String
  isZipValid : Bool
  isRarValid : Bool
  entries : List FsFile
  rarToolMissing : Bool
  extractRaises : Bool
  deriving DecidableEq, Repr

/-- The diagnostic branch `extract_archive` takes (each prints a distinct
message in the source; all failure branches return `None`). -/
inductive ExtBranch where
  | success
  | unsupported
  | corruptZip
  | corruptRar
  | missingTool
  | extractError
  deriving DecidableEq, Repr

/-- The caller-observable outcome of one `extract_archive` call: the
returned value (the extraction folder's path relative to the scratch
root, or `none`), the diagnostic branch taken, whether the working folder
`temp_dir / stem` exists when the call returns, and the files it then
contains. -/
structure ExtractOutcome where
  result : Option (List String)
  branch : ExtBranch
  dirExists : Bool
  dirFiles : List FsFile
  deriving DecidableEq, Repr

/-- `extract_archive` (`src/converter.py:130-174`).  The working folder
`temp_dir / archive_path.stem` is created by `mkdir` before the suffix is
examined.  A `.zip` suffix first runs `zipfile.is_zipfile`: failure
prints the invalid-zip message and returns `None` with the folder left in
place.  A `.rar` suffix runs `rarfile.is_rarfile` the same way; a
`rarfile.RarExecError` during extraction (missing `unrar`) prints its own
message and returns `None`, also leaving the folder.  Any other suffix
prints the unsupported-format message and returns `None`, leaving the
folder.  A generic exception during extraction is the one branch that
removes the folder (`shutil.rmtree`) before returning `None`.  Success
returns the folder's path with the entries extracted into it. -/
def extractArchive (a : ArchiveInput) : ExtractOutcome :=
  if a.suffix = ".zip" then
    if ¬ a.isZipValid then ⟨none, .corruptZip, true, []⟩
    else if a.extractRaises then ⟨none, .extractError, false, []⟩
    else ⟨some [a.stem], .success, true, a.entries⟩
  else if a.suffix = ".rar" then
    if ¬ a.isRarValid then ⟨none, .corruptRar, true, []⟩
    else if a.rarToolMissing then ⟨none, .missingTool, true, []⟩
    else if a.extractRaises then ⟨none, .extractError, false, []⟩
    else ⟨some [a.stem], .success, true, a.entries⟩
  else ⟨none, .unsupported, true, []⟩

end Extract

/-! ## Derived observations on documents -/

namespace Markup

/-- The number of `img` descendants of the document's first `body`
element (`0` when no body exists): the quantity `fix_xhtml_content`
branches on. -/
def bodyImgCount (doc : NodeList) : Nat :=
  match findBodyL doc with
  | none => 0
  | some b => imgCountL (bodyChildren b)

/-- The attributes of the first `img` (in document order) inside the
document's first `body` element. -/
def firstBodyImgAttrs (doc : NodeList) : Option (List (String × String)) :=
  match findBodyL doc with
  | none => none
  | some b => firstImgL (bodyChildren b)

/-- The document with the first `body`'s children erased: what remains of
a document outside its body content. -/
def eraseBody (doc : NodeList) : NodeList :=
  replaceBodyL .nil doc

/-- `imgCountN` lifted to an optional node (`0` for `none`). -/
def imgCountO : Option Node → Nat
  | none => 0
  | some n => imgCountN n

/-- `firstImgN` lifted to an optional node. -/
def firstImgO : Option Node → Option (List (String × String))
  | none => none
  | some n => firstImgN n

end Markup

/-! ## Sample inputs used by witnesses and counterexamples -/

namespace Samples

/-- A working folder with a top-level `mimetype` and two content files. -/
def folderA : List Repack.FsFile :=
  [⟨["mimetype"], "application/epub+zip"⟩,
   ⟨["OEBPS", "chap1.xhtml"], "c1"⟩,
   ⟨["OEBPS", "img", "p1.jpg"], "J"⟩]

/-- A working folder holding a second file whose base name is `mimetype`,
inside a subdirectory. -/
def folderSub : List Repack.FsFile :=
  [⟨["mimetype"], "application/epub+zip"⟩,
   ⟨["META-INF", "mimetype"], "x"⟩,
   ⟨["OEBPS", "a.txt"], "y"⟩]

/-- A sample original package container. -/
def origPkg : List Repack.ZipEntry :=
  [⟨["mimetype"], .stored, "application/epub+zip"⟩,
   ⟨["OEBPS", "chap1.xhtml"], .deflated, "c"⟩]

/-- An input with an unsupported extension. -/
def arch7z : Extract.ArchiveInput := ⟨"book", ".7z", false, false, [], false, false⟩

/-- A `.zip`-suffixed file that is not a valid zip. -/
def archBadZip : Extract.ArchiveInput := ⟨"vol2", ".zip", false, false, [], false, false⟩

/-- Another corrupt `.zip`-suffixed file. -/
def archBadZip2 : Extract.ArchiveInput := ⟨"vol3", ".zip", false, false, [], false, false⟩

/-- A valid `.rar` archive on a host with no `unrar` utility. -/
def archRarNoTool : Extract.ArchiveInput := ⟨"vol4", ".rar", false, true, [], true, false⟩

open Node NodeList in
/-- A document whose body holds a single `img`: below the rewrite
threshold. -/
def docOneImg : NodeList :=
  .cons (.elem "html" []
    (.cons (.elem "body" [] (.cons (.elem "img" [("src", "p1.png")] .nil) .nil)) .nil)) .nil

open Node NodeList in
/-- A document whose body holds three `img` elements (one nested in a
`div`), the first carrying `class` and `style` attributes. -/
def docThreeImgs : NodeList :=
  .cons
    (.elem "html" [("lang", "ja")]
      (.cons (.elem "head" [] (.cons (.text "title") .nil))
        (.cons
          (.elem "body" [("id", "b")]
            (.cons (.elem "img" [("class", "slice-1"), ("src", "p1.png"), ("style", "top:0")] .nil)
              (.cons (.text "mid")
                (.cons
                  (.elem "div" []
                    (.cons (.elem "img" [("class", "slice-2"), ("src", "p2.png")] .nil) .nil))
                  (.cons (.elem "img" [("src", "p3.png")] .nil) .nil)))))
          .nil)))
    .nil

end Samples

/-! ## Claim theorems: the repackager's container layout -/

open Repack Extract Markup

/-- C1: for every working folder holding a top-level `mimetype` file, the
rebuilt container's physically first entry is named exactly `mimetype`
and is stored uncompressed, and no entry named `mimetype` appears more
than once (exactly one does). -/
theorem repack_mimetype_first_stored_unique (folder : List FsFile)
    (h : ∃ f ∈ folder, f.path = ["mimetype"]) :
    ∃ e, (rebuildEntries folder).head? = some e ∧
      e.name = ["mimetype"] ∧ e.mode = .stored ∧
      (rebuildEntries folder).countP (fun e => e.name = ["mimetype"]) = 1 := by
  have hsome : (folder.find? (fun f => f.path = ["mimetype"])).isSome := by
    rw [List.find?_isSome]
    obtain ⟨f, hf, hp⟩ := h
    exact ⟨f, hf, by simp [hp]⟩
  obtain ⟨f0, hf0⟩ := Option.isSome_iff_exists.mp hsome
  refine ⟨⟨["mimetype"], .stored, f0.content⟩, ?_, rfl, rfl, ?_⟩
  · simp [rebuildEntries, mimetypePass, hf0]
  · have hrest : (restPass folder).countP (fun e => e.name = ["mimetype"]) = 0 := by
      rw [List.countP_eq_zero]
      intro e he
      simp only [restPass, List.mem_map, List.mem_filter] at he
      obtain ⟨g, ⟨hg, hgb⟩, rfl⟩ := he
      simp only [decide_eq_true_eq]
      intro hname
      simp [baseName, hname] at hgb
    simp [rebuildEntries, mimetypePass, hf0, List.countP_append, hrest]

/-- C1 witness: the container layout at a concrete working folder. -/
theorem repack_mimetype_first_stored_unique_witness :
    ∃ e, (rebuildEntries Samples.folderA).head? = some e ∧
      e.name = ["mimetype"] ∧ e.mode = .stored ∧
      (rebuildEntries Samples.folderA).countP (fun e => e.name = ["mimetype"]) = 1 :=
  repack_mimetype_first_stored_unique Samples.folderA
    ⟨⟨["mimetype"], "application/epub+zip"⟩, by simp [Samples.folderA], rfl⟩

/-- C2 (code bug): at a concrete working folder, the non-`mimetype` entry
of the rebuilt container is written stored, not deflated —
`zipfile.ZipFile(p, 'w')` defaults to `ZIP_STORED` and pass B's
`zf.write(item, arcname)` names no `compress_type`, while the code's own
comment for pass B says the remaining files are written compressed. -/
theorem repack_rest_entries_stored_not_deflated :
    ((rebuildEntries [⟨["mimetype"], "application/epub+zip"⟩, ⟨["OEBPS", "chap1.xhtml"], "c"⟩]).map
        (fun e => e.mode)) = [.stored, .stored] ∧
      CompressMode.stored ≠ CompressMode.deflated := by
  constructor
  · rfl
  · decide

/-- C3: whenever `fix_html_and_repack_epub` fails before the commit step
(unpack error, normalize exception, or a rebuild failure partway), the
original container at the package path is unchanged, no file is left at
the temporary path, and the run reports failure. -/
theorem repack_precommit_failure_atomic (g : String → String)
    (orig : List ZipEntry) (fp : FailPoint) (h : preCommitFail fp) :
    (fixHtmlAndRepackEpub g fp ⟨some orig, none, none⟩).1.pkg = some orig ∧
    (fixHtmlAndRepackEpub g fp ⟨some orig, none, none⟩).1.temp = none ∧
    (fixHtmlAndRepackEpub g fp ⟨some orig, none, none⟩).2 = false := by
  cases fp with
  | noFail => exact absurd h (by simp [preCommitFail])
  | atCommit b => exact absurd h (by simp [preCommitFail])
  | atUnpack b => simp [fixHtmlAndRepackEpub, tryBody, exceptHandler, finallyCleanup]
  | atNormalize => simp [fixHtmlAndRepackEpub, tryBody, exceptHandler, finallyCleanup]
  | atRebuild k => simp [fixHtmlAndRepackEpub, tryBody, exceptHandler, finallyCleanup]

/-- C3 witness: a rebuild failure after one written entry leaves the
concrete original package intact and the temporary path empty. -/
theorem repack_precommit_failure_atomic_witness :
    (fixHtmlAndRepackEpub id (.atRebuild 1) ⟨some Samples.origPkg, none, none⟩).1.pkg =
        some Samples.origPkg ∧
    (fixHtmlAndRepackEpub id (.atRebuild 1) ⟨some Samples.origPkg, none, none⟩).1.temp = none ∧
    (fixHtmlAndRepackEpub id (.atRebuild 1) ⟨some Samples.origPkg, none, none⟩).2 = false :=
  repack_precommit_failure_atomic id Samples.origPkg (.atRebuild 1) (by decide)

/-- C9: on every exit path of `fix_html_and_repack_epub` — success, any
injected failure, exceptions inside normalize or rebuild, even a commit
failure — the working folder does not exist when the call returns: the
`finally` handler removes it. -/
theorem repack_workdir_removed_all_paths (g : String → String) (fp : FailPoint)
    (pkg0 : Option (List ZipEntry)) :
    (fixHtmlAndRepackEpub g fp ⟨pkg0, none, none⟩).1.workdir = none := by
  cases fp <;> cases pkg0 <;>
    simp [fixHtmlAndRepackEpub, tryBody, exceptHandler, finallyCleanup]

/-- C7 counterexample: at a concrete working folder holding
`META-INF/mimetype`, the rebuilt container has no entry at that path —
pass B's filter `item.name != 'mimetype'` compares base names, so it also
drops `mimetype` files inside subdirectories, contradicting the claim
that such entries are present. -/
theorem rebuild_drops_subdir_mimetype :
    ¬ ∃ e ∈ rebuildEntries Samples.folderSub, e.name = ["META-INF", "mimetype"] := by
  decide

/-- C7 amended: every working-folder file whose base name is not
`mimetype` appears in the rebuilt container at its relative path with its
content; but every file whose base name is `mimetype` other than the
top-level one is dropped — no entry of the container carries its path. -/
theorem rebuild_presence_amended (folder : List FsFile) (f : FsFile)
    (hf : f ∈ folder) (hb : baseName f ≠ "mimetype") :
    (⟨f.path, .stored, f.content⟩ : ZipEntry) ∈ rebuildEntries folder ∧
    ∀ g ∈ folder, baseName g = "mimetype" → g.path ≠ ["mimetype"] →
      ∀ e ∈ rebuildEntries folder, e.name ≠ g.path := by
  constructor
  · simp only [rebuildEntries, List.mem_append]
    right
    simp only [restPass, List.mem_map]
    exact ⟨f, List.mem_filter.mpr ⟨hf, by simp [hb]⟩, rfl⟩
  · intro g hg hgb hgtop e he
    simp only [rebuildEntries, List.mem_append] at he
    rcases he with he | he
    · simp only [mimetypePass] at he
      rcases hfind : folder.find? (fun f => f.path = ["mimetype"]) with _ | f0 <;>
        rw [hfind] at he <;> simp at he
      rw [he]
      exact fun hcontra => hgtop hcontra.symm
    · simp only [restPass, List.mem_map, List.mem_filter] at he
      obtain ⟨h0, ⟨hh0, hh0b⟩, rfl⟩ := he
      intro hpath
      have hp : h0.path = g.path := hpath
      have hbase : baseName h0 = "mimetype" := by
        simp only [baseName, hp]
        simpa [baseName] using hgb
      simp [hbase] at hh0b

/-- C7 witness: presence and omission at a concrete working folder. -/
theorem rebuild_presence_amended_witness :
    (⟨["OEBPS", "a.txt"], .stored, "y"⟩ : ZipEntry) ∈ rebuildEntries Samples.folderSub ∧
    ∀ g ∈ Samples.folderSub, baseName g = "mimetype" → g.path ≠ ["mimetype"] →
      ∀ e ∈ rebuildEntries Samples.folderSub, e.name ≠ g.path :=
  rebuild_presence_amended Samples.folderSub ⟨["OEBPS", "a.txt"], "y"⟩
    (by simp [Samples.folderSub]) (by decide)

/-! ## Claim theorems: the archive extractor -/

/-- C5 counterexample: at a concrete `.7z`-suffixed input,
`extract_archive` does take the unsupported-format branch and returns
`None`, but the working folder exists when the call returns — `mkdir`
runs before the extension is examined and the early return does not
remove it, contradicting the claim that the filesystem is untouched. -/
theorem extract_unsupported_creates_workdir :
    (extractArchive Samples.arch7z).branch = .unsupported ∧
    (extractArchive Samples.arch7z).result = none ∧
    (extractArchive Samples.arch7z).dirExists = true := by
  decide

/-- C5 amended: for every input whose extension is outside {zip, rar},
`extract_archive` returns the unsupported-format failure (`None`), but
only after creating the working folder under the scratch root, which is
left behind empty. -/
theorem extract_unsupported_amended (a : ArchiveInput)
    (h1 : a.suffix ≠ ".zip") (h2 : a.suffix ≠ ".rar") :
    extractArchive a = ⟨none, .unsupported, true, []⟩ := by
  simp [extractArchive, h1, h2]

/-- C5 amended witness: the outcome at the concrete `.7z` input. -/
theorem extract_unsupported_amended_witness :
    extractArchive Samples.arch7z = ⟨none, .unsupported, true, []⟩ :=
  extract_unsupported_amended Samples.arch7z (by decide) (by decide)

/-- C6 counterexample: at a concrete corrupt `.zip` input,
`extract_archive` takes the corrupt-archive branch and returns `None`,
yet the working folder created before validation still exists when the
call returns, contradicting the claim that no directory survives under
the scratch root. -/
theorem extract_corrupt_zip_workdir_survives :
    (extractArchive Samples.archBadZip).branch = .corruptZip ∧
    (extractArchive Samples.archBadZip).result = none ∧
    (extractArchive Samples.archBadZip).dirExists = true := by
  decide

/-- C6 amended: for every `.zip`- or `.rar`-suffixed file that fails the
format's validity check, `extract_archive` returns the corrupt-archive
failure (`None`) and extracts no files, but the empty working folder
created before validation survives the call. -/
theorem extract_corrupt_amended (a : ArchiveInput)
    (h : (a.suffix = ".zip" ∧ a.isZipValid = false) ∨
         (a.suffix = ".rar" ∧ a.isRarValid = false)) :
    (extractArchive a).result = none ∧
    ((extractArchive a).branch = .corruptZip ∨ (extractArchive a).branch = .corruptRar) ∧
    (extractArchive a).dirExists = true ∧ (extractArchive a).dirFiles = [] := by
  rcases h with ⟨hs, hv⟩ | ⟨hs, hv⟩
  · simp [extractArchive, hs, hv]
  · have hz : a.suffix ≠ ".zip" := by rw [hs]; decide
    simp [extractArchive, hz, hs, hv]

/-- C6 amended witness: the outcome at a concrete corrupt `.zip` input. -/
theorem extract_corrupt_amended_witness :
    (extractArchive Samples.archBadZip2).result = none ∧
    ((extractArchive Samples.archBadZip2).branch = .corruptZip ∨
      (extractArchive Samples.archBadZip2).branch = .corruptRar) ∧
    (extractArchive Samples.archBadZip2).dirExists = true ∧
    (extractArchive Samples.archBadZip2).dirFiles = [] :=
  extract_corrupt_amended Samples.archBadZip2 (Or.inl ⟨rfl, rfl⟩)

/-- C10 counterexample: the value `extract_archive` returns when `unrar`
is absent equals the value it returns for a corrupt archive — both are
`None` — so the caller cannot distinguish the missing-tool failure from
`CorruptArchive`, contradicting the claim of a distinct, branchable
failure value. -/
theorem extract_missing_tool_value_not_distinct :
    (extractArchive Samples.archRarNoTool).result =
      (extractArchive Samples.archBadZip).result ∧
    (extractArchive Samples.archRarNoTool).branch = .missingTool ∧
    (extractArchive Samples.archBadZip).branch = .corruptZip := by
  decide

/-- C10 amended: for every valid `.rar` input on a host without `unrar`,
`extract_archive` takes a dedicated diagnostic branch (the
`rarfile.RarExecError` handler prints its own actionable message), but
the value returned to the caller is `None`, the same value returned by
every other failure kind. -/
theorem extract_missing_tool_amended (a : ArchiveInput)
    (h1 : a.suffix = ".rar") (h2 : a.isRarValid = true) (h3 : a.rarToolMissing = true) :
    (extractArchive a).branch = .missingTool ∧ (extractArchive a).result = none := by
  have hz : a.suffix ≠ ".zip" := by rw [h1]; decide
  simp [extractArchive, hz, h1, h2, h3]

/-- C10 amended witness: the outcome at the concrete tool-less `.rar`
input. -/
theorem extract_missing_tool_amended_witness :
    (extractArchive Samples.archRarNoTool).branch = .missingTool ∧
    (extractArchive Samples.archRarNoTool).result = none :=
  extract_missing_tool_amended Samples.archRarNoTool rfl rfl rfl

/-! ## Structural lemmas on documents

Shared helper lemmas about `findBodyL`, `replaceBodyL` and `fixImgsL`,
proved by mutual structural induction over `Node`/`NodeList`; the claim
theorems about the Markup Normalizer are derived from them. -/

namespace Markup

mutual

theorem findBodyN_none_of_not_hasBody : (n : Node) → hasBodyN n = false → findBodyN n = none
  | .text _, _ => rfl
  | .elem tag attrs cs, h => by
    simp only [hasBodyN, Bool.or_eq_false_iff, decide_eq_false_iff_not] at h
    simp only [findBodyN, if_neg h.1]
    exact findBodyL_none_of_not_hasBody cs h.2

theorem findBodyL_none_of_not_hasBody : (ns : NodeList) → hasBodyL ns = false → findBodyL ns = none
  | .nil, _ => rfl
  | .cons n ns, h => by
    simp only [hasBodyL, Bool.or_eq_false_iff] at h
    simp only [findBodyL, findBodyN_none_of_not_hasBody n h.1]
    exact findBodyL_none_of_not_hasBody ns h.2

end

mutual

theorem findBodyN_isSome_of_hasBody : (n : Node) → hasBodyN n = true → (findBodyN n).isSome = true
  | .elem tag attrs cs, h => by
    by_cases htag : tag = "body"
    · simp [findBodyN, htag]
    · simp only [hasBodyN, Bool.or_eq_true, decide_eq_true_eq] at h
      rcases h with h | h
      · exact absurd h htag
      · simp only [findBodyN, if_neg htag]
        exact findBodyL_isSome_of_hasBody cs h

theorem findBodyL_isSome_of_hasBody : (ns : NodeList) → hasBodyL ns = true → (findBodyL ns).isSome = true
  | .cons n ns, h => by
    simp only [hasBodyL, Bool.or_eq_true] at h
    simp only [findBodyL]
    cases hn : findBodyN n with
    | some b => simp
    | none =>
      rcases h with h | h
      · have := findBodyN_isSome_of_hasBody n h
        rw [hn] at this
        exact absurd this (by simp)
      · exact findBodyL_isSome_of_hasBody ns h

end

/-- A node with `findBodyN n = some b` has `hasBodyN n = true`. -/
theorem hasBodyN_of_findBody (n : Node) (b : Node) (h : findBodyN n = some b) :
    hasBodyN n = true := by
  cases hb : hasBodyN n with
  | true => rfl
  | false => rw [findBodyN_none_of_not_hasBody n hb] at h; exact absurd h (by simp)

/-- A node with `findBodyN n = none` has `hasBodyN n = false`. -/
theorem not_hasBodyN_of_findBody_none (n : Node) (h : findBodyN n = none) :
    hasBodyN n = false := by
  cases hb : hasBodyN n with
  | false => rfl
  | true =>
    have := findBodyN_isSome_of_hasBody n hb
    rw [h] at this
    exact absurd this (by simp)

mutual

theorem findBodyN_shape : (n : Node) → ∀ b, findBodyN n = some b →
    ∃ a cs, b = .elem "body" a cs
  | .text _, b, h => by simp [findBodyN] at h
  | .elem tag attrs cs, b, h => by
    by_cases htag : tag = "body"
    · subst htag
      refine ⟨attrs, cs, ?_⟩
      have hfind : findBodyN (Node.elem "body" attrs cs) = some (Node.elem "body" attrs cs) := by
        simp [findBodyN]
      rw [hfind] at h
      exact (Option.some.inj h).symm
    · simp only [findBodyN, if_neg htag] at h
      exact findBodyL_shape cs b h

theorem findBodyL_shape : (ns : NodeList) → ∀ b, findBodyL ns = some b →
    ∃ a cs, b = .elem "body" a cs
  | .nil, b, h => by simp [findBodyL] at h
  | .cons n ns, b, h => by
    simp only [findBodyL] at h
    cases hn : findBodyN n with
    | some b0 =>
      rw [hn] at h
      obtain rfl := Option.some.inj h
      exact findBodyN_shape n b0 hn
    | none =>
      rw [hn] at h
      exact findBodyL_shape ns b h

end

mutual

theorem hasBody_replaceBodyN (new : NodeList) : (n : Node) →
    hasBodyN (replaceBodyN new n) = hasBodyN n
  | .text _ => rfl
  | .elem tag attrs cs => by
    by_cases htag : tag = "body"
    · subst htag
      simp [replaceBodyN, hasBodyN]
    · simp [replaceBodyN, if_neg htag, hasBodyN, htag, hasBody_replaceBodyL new cs]

theorem hasBody_replaceBodyL (new : NodeList) : (ns : NodeList) →
    hasBodyL (replaceBodyL new ns) = hasBodyL ns
  | .nil => rfl
  | .cons n ns => by
    by_cases hn : hasBodyN n = true
    · simp [replaceBodyL, hn, hasBodyL, hasBody_replaceBodyN new n]
    · simp only [Bool.not_eq_true] at hn
      simp [replaceBodyL, hn, hasBodyL, hasBody_replaceBodyL new ns]

end

mutual

theorem replaceBody_replaceBodyN (c1 c2 : NodeList) : (n : Node) →
    replaceBodyN c1 (replaceBodyN c2 n) = replaceBodyN c1 n
  | .text _ => rfl
  | .elem tag attrs cs => by
    by_cases htag : tag = "body"
    · subst htag
      simp [replaceBodyN]
    · simp [replaceBodyN, if_neg htag, replaceBody_replaceBodyL c1 c2 cs]

theorem replaceBody_replaceBodyL (c1 c2 : NodeList) : (ns : NodeList) →
    replaceBodyL c1 (replaceBodyL c2 ns) = replaceBodyL c1 ns
  | .nil => rfl
  | .cons n ns => by
    by_cases hn : hasBodyN n = true
    · simp [replaceBodyL, hn, hasBody_replaceBodyN c2 n, replaceBody_replaceBodyN c1 c2 n]
    · simp only [Bool.not_eq_true] at hn
      simp [replaceBodyL, hn, hasBody_replaceBodyN c2 n, replaceBody_replaceBodyL c1 c2 ns]

end

mutual

theorem findBody_replaceBodyN (new : NodeList) : (n : Node) → ∀ a cs,
    findBodyN n = some (.elem "body" a cs) →
    findBodyN (replaceBodyN new n) = some (.elem "body" a new)
  | .text _, a, cs, h => by simp [findBodyN] at h
  | .elem tag attrs cs', a, cs, h => by
    by_cases htag : tag = "body"
    · subst htag
      have hfind : findBodyN (Node.elem "body" attrs cs') = some (Node.elem "body" attrs cs') := by
        simp [findBodyN]
      rw [hfind] at h
      injection Option.some.inj h with h1 h2 h3
      subst h2
      simp [replaceBodyN, findBodyN]
    · simp only [findBodyN, if_neg htag] at h
      simp only [replaceBodyN, if_neg htag, findBodyN, if_neg htag]
      exact findBody_replaceBodyL new cs' a cs h

theorem findBody_replaceBodyL (new : NodeList) : (ns : NodeList) → ∀ a cs,
    findBodyL ns = some (.elem "body" a cs) →
    findBodyL (replaceBodyL new ns) = some (.elem "body" a new)
  | .nil, a, cs, h => by simp [findBodyL] at h
  | .cons n ns, a, cs, h => by
    simp only [findBodyL] at h
    cases hn : findBodyN n with
    | some b0 =>
      rw [hn] at h
      obtain rfl := Option.some.inj h
      have hhas : hasBodyN n = true := hasBodyN_of_findBody n _ hn
      have hrw : replaceBodyL new (NodeList.cons n ns) = NodeList.cons (replaceBodyN new n) ns := by
        simp [replaceBodyL, hhas]
      rw [hrw]
      simp only [findBodyL, findBody_replaceBodyN new n a cs hn]
    | none =>
      rw [hn] at h
      have hhas : hasBodyN n = false := not_hasBodyN_of_findBody_none n hn
      have hrw : replaceBodyL new (NodeList.cons n ns) = NodeList.cons n (replaceBodyL new ns) := by
        simp [replaceBodyL, hhas]
      rw [hrw]
      simp only [findBodyL, hn]
      exact findBody_replaceBodyL new ns a cs h

end

theorem decide_pos_or (a b : Nat) :
    (decide (0 < a) || decide (0 < b)) = decide (0 < a + b) := by
  rcases Nat.eq_zero_or_pos a with rfl | ha
  · simp
  · have hab : 0 < a + b := Nat.lt_of_lt_of_le ha (Nat.le_add_right a b)
    simp [ha, hab]

mutual

theorem fixImgsN_flag : (f : Bool) → (n : Node) →
    (fixImgsN f n).1 = (f || decide (0 < imgCountN n))
  | f, .text s => by simp [fixImgsN, imgCountN]
  | f, .elem tag attrs cs => by
    by_cases htag : tag = "img"
    · subst htag
      cases f with
      | true => simp [fixImgsN, imgCountN]
      | false =>
        have hpos : 0 < 1 + imgCountL cs := by omega
        simp [fixImgsN, fixImgsL_flag true cs, imgCountN, hpos]
    · simp [fixImgsN, fixImgsL_flag f cs, imgCountN, htag]

theorem fixImgsL_flag : (f : Bool) → (ns : NodeList) →
    (fixImgsL f ns).1 = (f || decide (0 < imgCountL ns))
  | f, .nil => by simp [fixImgsL, imgCountL]
  | f, .cons n ns => by
    simp only [fixImgsL]
    rw [fixImgsL_flag (fixImgsN f n).1 ns, fixImgsN_flag f n]
    simp only [imgCountL, Bool.or_assoc, decide_pos_or]

end

mutual

theorem fixImgsN_count : (f : Bool) → (n : Node) →
    imgCountO (fixImgsN f n).2 = if f then 0 else min (imgCountN n) 1
  | f, .text s => by
    cases f <;> simp [fixImgsN, imgCountO, imgCountN]
  | f, .elem tag attrs cs => by
    by_cases htag : tag = "img"
    · subst htag
      cases f with
      | true => simp [fixImgsN, imgCountO]
      | false =>
        have h1 := fixImgsL_count true cs
        simp at h1
        simp [fixImgsN, imgCountO, imgCountN, h1]
    · have h1 := fixImgsL_count f cs
      cases f with
      | true =>
        simp at h1
        simp [fixImgsN, imgCountO, imgCountN, htag, h1]
      | false =>
        simp at h1
        simp [fixImgsN, imgCountO, imgCountN, htag, h1]

theorem fixImgsL_count : (f : Bool) → (ns : NodeList) →
    imgCountL (fixImgsL f ns).2 = if f then 0 else min (imgCountL ns) 1
  | f, .nil => by cases f <;> simp [fixImgsL, imgCountL]
  | f, .cons n ns => by
    have hsplit : imgCountL (fixImgsL f (NodeList.cons n ns)).2 =
        imgCountO (fixImgsN f n).2 + imgCountL (fixImgsL (fixImgsN f n).1 ns).2 := by
      simp only [fixImgsL]
      cases hr : (fixImgsN f n).2 <;> simp [imgCountO, imgCountL]
    rw [hsplit, fixImgsN_count f n, fixImgsL_count (fixImgsN f n).1 ns, fixImgsN_flag f n]
    cases f with
    | true => simp
    | false =>
      by_cases hc : 0 < imgCountN n <;> simp [hc, imgCountL] <;> omega

end

mutual

theorem firstImgN_none_iff : (n : Node) → (firstImgN n = none ↔ imgCountN n = 0)
  | .text _ => by simp [firstImgN, imgCountN]
  | .elem tag attrs cs => by
    by_cases htag : tag = "img"
    · subst htag
      simp [firstImgN, imgCountN]
    · simp [firstImgN, htag, imgCountN, firstImgL_none_iff cs]

theorem firstImgL_none_iff : (ns : NodeList) → (firstImgL ns = none ↔ imgCountL ns = 0)
  | .nil => by simp [firstImgL, imgCountL]
  | .cons n ns => by
    simp only [firstImgL, imgCountL]
    cases hn : firstImgN n with
    | some a =>
      have hcn : imgCountN n ≠ 0 := by
        intro hc
        rw [(firstImgN_none_iff n).mpr hc] at hn
        exact absurd hn (by simp)
      simp
      omega
    | none =>
      have hcn : imgCountN n = 0 := (firstImgN_none_iff n).mp hn
      simp [hcn, firstImgL_none_iff ns]

end

theorem fixImgsN_false_some (n : Node) : ∃ n2, (fixImgsN false n).2 = some n2 := by
  cases n with
  | text s => exact ⟨_, rfl⟩
  | elem tag attrs cs =>
    by_cases htag : tag = "img"
    · subst htag
      simp [fixImgsN]
    · simp [fixImgsN, htag]

mutual

theorem fixImgsN_firstImg : (n : Node) →
    firstImgO (fixImgsN false n).2 = (firstImgN n).map stripPresentation
  | .text s => by simp [fixImgsN, firstImgN, firstImgO]
  | .elem tag attrs cs => by
    by_cases htag : tag = "img"
    · subst htag
      simp [fixImgsN, firstImgO, firstImgN]
    · simp only [fixImgsN, if_neg htag]
      simp only [firstImgO, firstImgN, if_neg htag]
      exact fixImgsL_firstImg cs

theorem fixImgsL_firstImg : (ns : NodeList) →
    firstImgL (fixImgsL false ns).2 = (firstImgL ns).map stripPresentation
  | .nil => by simp [fixImgsL, firstImgL]
  | .cons n ns => by
    obtain ⟨n2, hn2⟩ := fixImgsN_false_some n
    have hcons : (fixImgsL false (NodeList.cons n ns)).2 =
        NodeList.cons n2 (fixImgsL (fixImgsN false n).1 ns).2 := by
      simp only [fixImgsL, hn2]
    rw [hcons]
    have hfn2 : firstImgN n2 = (firstImgN n).map stripPresentation := by
      have := fixImgsN_firstImg n
      rw [hn2] at this
      exact this
    cases hn : firstImgN n with
    | some a =>
      rw [hn] at hfn2
      simp [firstImgL, hfn2, hn]
    | none =>
      rw [hn] at hfn2
      have hc : imgCountN n = 0 := (firstImgN_none_iff n).mp hn
      have hflag : (fixImgsN false n).1 = false := by
        rw [fixImgsN_flag false n]
        simp [hc]
      simp only [firstImgL, hfn2, hn, hflag]
      exact fixImgsL_firstImg ns

end

theorem fixXhtml_no_change (doc : NodeList) (h : bodyImgCount doc < 2) :
    fixXhtmlContent doc = (doc, false) := by
  unfold bodyImgCount at h
  unfold fixXhtmlContent
  cases hb : findBodyL doc with
  | none => simp
  | some b =>
    rw [hb] at h
    simp [if_pos h]

theorem fixXhtml_changed (doc : NodeList) (h : 2 ≤ bodyImgCount doc) :
    ∃ a cs, findBodyL doc = some (.elem "body" a cs) ∧ 2 ≤ imgCountL cs ∧
      fixXhtmlContent doc = (replaceBodyL (fixImgsL false cs).2 doc, true) := by
  cases hb : findBodyL doc with
  | none =>
    have hbc : bodyImgCount doc = 0 := by
      unfold bodyImgCount
      rw [hb]
    rw [hbc] at h
    omega
  | some b =>
    have hbc : bodyImgCount doc = imgCountL (bodyChildren b) := by
      unfold bodyImgCount
      rw [hb]
    rw [hbc] at h
    obtain ⟨a, cs, rfl⟩ := findBodyL_shape doc b hb
    simp only [bodyChildren] at h
    refine ⟨a, cs, rfl, h, ?_⟩
    unfold fixXhtmlContent
    rw [hb]
    simp [bodyChildren, Nat.not_lt.mpr h]

theorem bodyImgCount_fix (doc : NodeList) (h : 2 ≤ bodyImgCount doc) :
    bodyImgCount (fixXhtmlContent doc).1 = 1 := by
  obtain ⟨a, cs, hb, hc, heq⟩ := fixXhtml_changed doc h
  rw [heq]
  unfold bodyImgCount
  rw [findBody_replaceBodyL _ doc a cs hb]
  simp only [bodyChildren]
  have := fixImgsL_count false cs
  simp at this
  rw [this]
  omega

theorem firstBodyImgAttrs_fix (doc : NodeList) (h : 2 ≤ bodyImgCount doc) :
    firstBodyImgAttrs (fixXhtmlContent doc).1 =
      (firstBodyImgAttrs doc).map stripPresentation := by
  obtain ⟨a, cs, hb, hc, heq⟩ := fixXhtml_changed doc h
  rw [heq]
  unfold firstBodyImgAttrs
  rw [findBody_replaceBodyL _ doc a cs hb, hb]
  simp only [bodyChildren]
  exact fixImgsL_firstImg cs

theorem eraseBody_fix (doc : NodeList) (h : 2 ≤ bodyImgCount doc) :
    eraseBody (fixXhtmlContent doc).1 = eraseBody doc := by
  obtain ⟨a, cs, hb, hc, heq⟩ := fixXhtml_changed doc h
  rw [heq]
  unfold eraseBody
  exact replaceBody_replaceBodyL .nil _ doc

end Markup

/-! ## Claim theorems: the markup normalizer -/

/-- C4: for every parsed markup fragment, with N the number of `img`
descendants of the first `body` (N = 0 when no body exists): if N < 2,
`fix_xhtml_content` returns `false` and the document — hence the file —
is unmodified; if N ≥ 2, it returns `true` and the rewritten document's
body contains exactly one `img`, whose attributes are those of the
originally first `img` in document order with the `class` and `style`
keys removed, and the document outside the body children is preserved. -/
theorem normalize_spec (doc : NodeList) :
    (bodyImgCount doc < 2 → fixXhtmlContent doc = (doc, false)) ∧
    (2 ≤ bodyImgCount doc →
      (fixXhtmlContent doc).2 = true ∧
      bodyImgCount (fixXhtmlContent doc).1 = 1 ∧
      firstBodyImgAttrs (fixXhtmlContent doc).1 =
        (firstBodyImgAttrs doc).map stripPresentation ∧
      (∀ a, firstBodyImgAttrs (fixXhtmlContent doc).1 = some a →
        ∀ p ∈ a, p.1 ≠ "class" ∧ p.1 ≠ "style") ∧
      eraseBody (fixXhtmlContent doc).1 = eraseBody doc) := by
  constructor
  · exact fixXhtml_no_change doc
  · intro h
    obtain ⟨a, cs, hb, hc, heq⟩ := Markup.fixXhtml_changed doc h
    refine ⟨by rw [heq], Markup.bodyImgCount_fix doc h,
      Markup.firstBodyImgAttrs_fix doc h, ?_, Markup.eraseBody_fix doc h⟩
    intro al hal p hp
    rw [Markup.firstBodyImgAttrs_fix doc h] at hal
    cases hfa : firstBodyImgAttrs doc with
    | none => rw [hfa] at hal; exact absurd hal (by simp)
    | some a0 =>
      rw [hfa] at hal
      obtain rfl := Option.some.inj hal
      simp only [stripPresentation] at hp
      have h2 := (List.mem_filter.mp hp).2
      simp only [decide_eq_true_eq] at h2
      push_neg at h2
      exact h2

/-- C4 witness: the below-threshold document is returned unchanged with
`false`, and the three-image document is rewritten with the claimed body
shape. -/
theorem normalize_spec_witness :
    fixXhtmlContent Samples.docOneImg = (Samples.docOneImg, false) ∧
    (fixXhtmlContent Samples.docThreeImgs).2 = true ∧
    bodyImgCount (fixXhtmlContent Samples.docThreeImgs).1 = 1 ∧
    firstBodyImgAttrs (fixXhtmlContent Samples.docThreeImgs).1 =
      (firstBodyImgAttrs Samples.docThreeImgs).map stripPresentation ∧
    eraseBody (fixXhtmlContent Samples.docThreeImgs).1 =
      eraseBody Samples.docThreeImgs := by
  refine ⟨(normalize_spec Samples.docOneImg).1 (by decide), ?_⟩
  obtain ⟨h1, h2, h3, _, h5⟩ := (normalize_spec Samples.docThreeImgs).2 (by decide)
  exact ⟨h1, h2, h3, h5⟩

/-- C8: normalize is idempotent — whenever `fix_xhtml_content` rewrites a
document (returns `true`), running it again on the rewritten document
returns `false` and leaves it unchanged. -/
theorem normalize_idempotent (doc doc' : NodeList)
    (h : fixXhtmlContent doc = (doc', true)) :
    fixXhtmlContent doc' = (doc', false) := by
  have h2 : 2 ≤ bodyImgCount doc := by
    by_contra hlt
    push_neg at hlt
    rw [Markup.fixXhtml_no_change doc hlt] at h
    have := congrArg Prod.snd h
    exact absurd this (by simp)
  have hdoc' : doc' = (fixXhtmlContent doc).1 := by rw [h]
  have hone := Markup.bodyImgCount_fix doc h2
  rw [← hdoc'] at hone
  exact Markup.fixXhtml_no_change doc' (by omega)

/-- C8 witness: a second application to the rewritten three-image
document returns `false` and the same document. -/
theorem normalize_idempotent_witness :
    fixXhtmlContent (fixXhtmlContent Samples.docThreeImgs).1 =
      ((fixXhtmlContent Samples.docThreeImgs).1, false) :=
  normalize_idempotent Samples.docThreeImgs (fixXhtmlContent Samples.docThreeImgs).1 rfl
